import Mathlib

/-!
Verification development for the kb_index repository.

This file gives a shallow embedding of the parts of the source that the
frozen claims are about: the line chunker (src/kb_core/src/utils/mod.rs),
the per-file diff engine of handle_index
(src/kb_core/src/cli/commands/index.rs), the query cache and the session
manager (src/kb_core/src/state/mod.rs), the LLM context windowing
(src/kb_core/src/llm/mod.rs), and the JSON snapshot round trip.

Modelling conventions:
- machine integers (u64, usize) are Nat;
- f32 vectors are lists of real numbers, so the cosine similarity with
  its square roots is exact rather than rounded;
- Rust HashMap values are association lists whose insertion replaces an
  existing key in place;
- the SHA-256 digest (sha2 crate, external) is an abstract parameter,
  modelled by the byte stream it is fed;
- effectful per-file indexing is state passing: the per-file step returns
  the new IndexState together with the list of hashes sent to the
  embedding+upload pipeline and the list of chunk ids scheduled for
  remote deletion.
-/

/-! ## Chunker (src/kb_core/src/utils/mod.rs, chunk_text) -/

/-- Char-level model of Rust trim().is_empty(): a string is blank when
every char is whitespace. -/
def is_blank (s : String) : Bool := s.data.all (fun c => c.isWhitespace)

/-- Model of Rust str::len, the UTF-8 byte length. -/
def byte_len (s : String) : Nat := s.data.foldl (fun n c => n + c.utf8Size) 0

/-- Splits a char stream at every newline; auxiliary for rustLines. -/
def splitLinesAux : List Char → List Char → List String
  | [], acc => [String.mk acc.reverse]
  | c :: cs, acc =>
    if c = '\n' then String.mk acc.reverse :: splitLinesAux cs []
    else splitLinesAux cs (c :: acc)

/-- Model of Rust str::lines: split on newline, a final line ending is
optional, and one trailing carriage return is stripped from each line. -/
def rustLines (s : String) : List String :=
  let parts := splitLinesAux s.data []
  let parts2 := if parts.getLast? = some "" then parts.dropLast else parts
  parts2.map (fun l =>
    if l.data.getLast? = some '\r' then String.mk l.data.dropLast else l)

/-- Model of Rust slice::chunks(10) applied to the line list. -/
def chunksOf : List α → List (List α)
  | [] => []
  | x :: xs => (x :: xs.take 9) :: chunksOf (xs.drop 9)
termination_by l => l.length
decreasing_by simp; omega

/-- Model of Rust slice::join with separator a newline. -/
def join_lines : List String → String
  | [] => ""
  | [l] => l
  | l :: ls => l ++ "\n" ++ join_lines ls

/-- Shallow embedding of chunk_text: lines, windows of 10, joined with
newline, windows that are blank after trimming dropped. -/
def chunk_text (text : String) : List String :=
  ((chunksOf (rustLines text)).map join_lines).filter (fun c => !(is_blank c))

/-! ## Diff engine state (src/kb_core/src/state/mod.rs) -/

/-- Mirror of struct IndexedChunk. -/
structure IndexedChunk where
  hash : String
  id : String
deriving DecidableEq

/-- Mirror of struct FileMetadata. -/
structure FileMetadata where
  last_modified : Nat
  chunks : List IndexedChunk
deriving DecidableEq

/-- Mirror of struct IndexState; the HashMap is an association list. -/
structure IndexState where
  files : List (String × FileMetadata)
deriving DecidableEq

/-- Mirror of IndexState::get_last_modified. -/
def get_last_modified (s : IndexState) (path : String) : Option Nat :=
  (s.files.find? (fun p => p.1 == path)).map (fun p => p.2.last_modified)

/-- Mirror of IndexState::get_file_chunks. -/
def get_file_chunks (s : IndexState) (path : String) : Option (List IndexedChunk) :=
  (s.files.find? (fun p => p.1 == path)).map (fun p => p.2.chunks)

/-- Mirror of IndexState::update_file_chunks: HashMap::insert replaces an
existing entry, otherwise appends a fresh one. -/
def update_file_chunks (s : IndexState) (path : String)
    (chunks : List IndexedChunk) (last_modified : Nat) : IndexState :=
  if s.files.any (fun p => p.1 == path) then
    IndexState.mk (s.files.map (fun p =>
      if p.1 == path then (path, FileMetadata.mk last_modified chunks) else p))
  else
    IndexState.mk (s.files ++ [(path, FileMetadata.mk last_modified chunks)])

/-- Mirror of IndexState::has_chunk. -/
def has_chunk (state : List IndexedChunk) (hash : String) : Bool :=
  state.any (fun c => c.hash == hash)

/-! ## Per-file diff step of handle_index
(src/kb_core/src/cli/commands/index.rs, lines 30-107)

The body of the per-file loop, transcribed with every chunk pipeline
succeeding and fresh_ids supplying the Uuid of each successful pipeline in
completion order.  hash_chunk abstracts the SHA-256 content digest.
Result: (new index state, hashes embedded and uploaded, chunk ids deleted
remotely). -/

/-- Diff body of the per-file loop, entered when the stored modification
time is absent or differs. -/
def process_file_body (hash_chunk : String → String) (state : IndexState)
    (file_str : String) (modified : Nat) (chunks : List String)
    (fresh_ids : List String) : IndexState × List String × List String :=
  let prev_chunks := (get_file_chunks state file_str).getD []
  let chunk_info := chunks.foldl (fun acc chunk =>
    if is_blank chunk ∨ byte_len chunk > 100000 then acc
    else
      let hash := hash_chunk chunk
      if has_chunk prev_chunks hash then acc else acc ++ [(chunk, hash)]) []
  let new_chunks := (chunk_info.zip fresh_ids).map (fun p => IndexedChunk.mk p.1.2 p.2)
  let embedded := chunk_info.map (fun p => p.2)
  if new_chunks.isEmpty then (state, embedded, [])
  else
    let keep := fun (c : IndexedChunk) => new_chunks.all (fun n => n.hash != c.hash)
    let updated_chunks := prev_chunks.filter keep ++ new_chunks
    let removed := prev_chunks.filter (fun c => !(keep c))
    (update_file_chunks state file_str updated_chunks modified, embedded,
      removed.map (fun c => c.id))

/-- One iteration of the per-file loop of handle_index: skip when the
stored modification time equals the current one, otherwise run the diff
body. -/
def process_file (hash_chunk : String → String) (state : IndexState)
    (file_str : String) (modified : Nat) (chunks : List String)
    (fresh_ids : List String) : IndexState × List String × List String :=
  if get_last_modified state file_str = some modified then (state, [], [])
  else process_file_body hash_chunk state file_str modified chunks fresh_ids

/-! ## Query cache (src/kb_core/src/state/mod.rs, QueryState) -/

/-- Mirror of struct QueryCache; the f32 embedding is a real vector. -/
structure QueryCache where
  query : String
  context_hash : String
  embedding : List ℝ
  answer : String

/-- Mirror of struct QueryState. -/
structure QueryState where
  entries : List QueryCache

/-- Shallow embedding of cosine_similarity: dot product of the zipped
vectors over the product of the Euclidean norms plus the 1e-8 epsilon. -/
noncomputable def cosine_similarity (a b : List ℝ) : ℝ :=
  ((a.zip b).map (fun p => p.1 * p.2)).sum
    / (Real.sqrt ((a.map (fun x => x * x)).sum)
        * Real.sqrt ((b.map (fun x => x * x)).sum) + 1 / 100000000)

/-- Mirror of QueryState::get_cached_answer: the first entry matching
both the query text and the context hash, answer returned verbatim. -/
def get_cached_answer (s : QueryState) (query : String) (context_hash : String) :
    Option String :=
  (s.entries.find? (fun e => e.query == query && e.context_hash == context_hash)).map
    (fun e => e.answer)

/-- The filter_map stage of QueryState::find_similar: entries of matching
dimensionality whose similarity strictly exceeds the threshold, paired
with their similarity. -/
noncomputable def scored (entries : List QueryCache) (query_embedding : List ℝ)
    (threshold : ℝ) : List (ℝ × String) :=
  entries.filterMap (fun e =>
    if e.embedding.length = query_embedding.length then
      if threshold < cosine_similarity e.embedding query_embedding then
        some (cosine_similarity e.embedding query_embedding, e.answer)
      else none
    else none)

/-- One step of Rust Iterator::max_by on the similarity key: the
accumulator survives only when strictly greater, so equal maxima resolve
to the later element. -/
noncomputable def maxStep (acc : Option (ℝ × String)) (x : ℝ × String) :
    Option (ℝ × String) :=
  match acc with
  | none => some x
  | some a => if x.1 < a.1 then some a else some x

/-- Rust Iterator::max_by over the scored list. -/
noncomputable def rustMaxBy (l : List (ℝ × String)) : Option (ℝ × String) :=
  l.foldl maxStep none

/-- Shallow embedding of QueryState::find_similar. -/
noncomputable def find_similar (s : QueryState) (query_embedding : List ℝ)
    (threshold : ℝ) : Option String :=
  (rustMaxBy (scored s.entries query_embedding threshold)).map (fun p => p.2)

/-! ## Context hashing (src/kb_core/src/state/mod.rs, hash_query_context) -/

/-- Model of the sha2 incremental hasher: the state is the byte stream
fed so far (chars stand for UTF-8 bytes; UTF-8 encoding preserves and
reflects concatenation). -/
structure Sha256 where
  acc : List Char

/-- Hasher update appends the input bytes to the stream. -/
def Sha256.update (h : Sha256) (s : String) : Sha256 :=
  Sha256.mk (h.acc ++ s.data)

/-- Shallow embedding of hash_query_context, parameterized by the final
digest function on the accumulated stream: update with the query, then
with each context chunk in order, no separators. -/
def hash_query_context (digest : List Char → String) (query : String)
    (context_chunks : List String) : String :=
  digest ((context_chunks.foldl (fun h c => h.update c)
    (Sha256.update (Sha256.mk []) query)).acc)

/-! ## Session manager (src/kb_core/src/state/mod.rs, SessionManager) -/

/-- Mirror of struct SessionState. -/
structure SessionState where
  id : String
  queries : List String
  responses : List String
  created_at : Nat
  last_updated : Nat
deriving DecidableEq

/-- Mirror of struct SessionManager; the HashMap is an association
list. -/
structure SessionManager where
  sessions : List (String × SessionState)
  active_session : Option String
deriving DecidableEq

/-- HashMap lookup on the session map. -/
def lookup_session (l : List (String × SessionState)) (k : String) :
    Option SessionState :=
  (l.find? (fun p => p.1 == k)).map (fun p => p.2)

/-- Mirror of SessionManager::get_active_session. -/
def get_active_session (m : SessionManager) : Option SessionState :=
  m.active_session.bind (fun id => lookup_session m.sessions id)

/-- Mirror of SessionManager::set_active_session in state-passing form:
the returned manager is the caller's state after the call, the Except
value carries success or the bail message. -/
def set_active_session (m : SessionManager) (session_id : String) :
    SessionManager × Except String Unit :=
  if m.sessions.any (fun p => p.1 == session_id) then
    (SessionManager.mk m.sessions (some session_id), Except.ok ())
  else
    (m, Except.error ("Session not found: " ++ session_id))

/-- Mirror of SessionManager::add_interaction in state-passing form; now
is the clock reading taken at entry.  The bail happens when
get_active_session_mut yields nothing: no active pointer, or a dangling
one. -/
def add_interaction (m : SessionManager) (query response : String) (now : Nat) :
    SessionManager × Except String Unit :=
  match m.active_session with
  | none => (m, Except.error "No active session found")
  | some id =>
    match lookup_session m.sessions id with
    | none => (m, Except.error "No active session found")
    | some s =>
      let s2 := SessionState.mk s.id (s.queries ++ [query])
        (s.responses ++ [response]) s.created_at now
      (SessionManager.mk (m.sessions.map (fun p =>
        if p.1 == id then (p.1, s2) else p)) m.active_session, Except.ok ())

/-! ## LLM context windowing (src/kb_core/src/llm/mod.rs, lines 33-88) -/

/-- Role-tagged chat message. -/
structure Message where
  role : String
  content : String
deriving DecidableEq

/-- The fixed system prompt of get_llm_response. -/
def system_message : Message :=
  Message.mk "system" "You are an expert personal and code assistant."

/-- The synthetic windowing note inserted at index 1 when history was
truncated, citing the number of omitted turns. -/
def note_message (omitted : Nat) : Message :=
  Message.mk "system" ("Note: This conversation has " ++ toString omitted
    ++ " previous messages that aren\x27t shown here. I\x27m continuing from where we left off.")

/-- The final user message carrying the prompt and the joined context. -/
def user_message (prompt full_context : String) : Message :=
  Message.mk "user"
    ("Use the following code snippets to answer the question. Format your response in Markdown and include code where necessary.\n\nQuestion:\n"
      ++ prompt ++ "\n\nContext:\n" ++ full_context)

/-- The paired history messages pushed for the zipped query/response
turns. -/
def turnsR : List (String × String) → List Message
  | [] => []
  | p :: ps => Message.mk "user" p.1 :: Message.mk "assistant" p.2 :: turnsR ps

/-- Vec::insert at index 1, as used on the never-empty message vector. -/
def insert_at1 : List Message → Message → List Message
  | [], m => [m]
  | x :: xs, m => x :: m :: xs

/-- Shallow embedding of the message construction of get_llm_response:
system prompt, windowed history of the active session (last 5 turns,
note at index 1 when truncated), final user message with the joined
context. -/
def build_messages (session_manager : Option SessionManager) (prompt : String)
    (context_chunks : List String) : List Message :=
  let full_context := String.intercalate "\n\n---\n\n" context_chunks
  let base := [system_message]
  let with_hist :=
    match session_manager with
    | none => base
    | some manager =>
      match get_active_session manager with
      | none => base
      | some session =>
        let window_size := 5
        let start_idx := session.queries.length - window_size
        let hist := ((session.queries.drop start_idx).zip
          (session.responses.drop start_idx)).foldl
          (fun acc p => acc ++ [Message.mk "user" p.1, Message.mk "assistant" p.2])
          base
        if 0 < start_idx then insert_at1 hist (note_message start_idx) else hist
  with_hist ++ [user_message prompt full_context]

/-! ## JSON snapshots (serde layer of the save/load pairs)

save writes serde_json::to_string_pretty and load parses it back; the
derived Serialize/Deserialize map each struct to a JSON object with its
fields in declaration order, a Vec to an array, a HashMap to an object
and an Option to null-or-value.  The model works at the JSON tree level;
the text printing/parsing layer is serde_json's own round trip. -/

/-- JSON trees as serde_json produces them for these snapshots. -/
inductive Json where
  | str : String → Json
  | nat : Nat → Json
  | real : ℝ → Json
  | arr : List Json → Json
  | obj : List (String × Json) → Json
  | null : Json

/-- Serialization of IndexedChunk. -/
def IndexedChunk.toJson (c : IndexedChunk) : Json :=
  Json.obj [("hash", Json.str c.hash), ("id", Json.str c.id)]

/-- Serialization of FileMetadata. -/
def FileMetadata.toJson (m : FileMetadata) : Json :=
  Json.obj [("last_modified", Json.nat m.last_modified),
    ("chunks", Json.arr (m.chunks.map IndexedChunk.toJson))]

/-- Serialization of IndexState, the index-state.json snapshot. -/
def IndexState.toJson (s : IndexState) : Json :=
  Json.obj [("files", Json.obj (s.files.map (fun p => (p.1, FileMetadata.toJson p.2))))]

/-- Serialization of QueryCache. -/
def QueryCache.toJson (e : QueryCache) : Json :=
  Json.obj [("query", Json.str e.query),
    ("context_hash", Json.str e.context_hash),
    ("embedding", Json.arr (e.embedding.map Json.real)),
    ("answer", Json.str e.answer)]

/-- Serialization of QueryState, the query-cache.json snapshot. -/
def QueryState.toJson (s : QueryState) : Json :=
  Json.obj [("entries", Json.arr (s.entries.map QueryCache.toJson))]

/-- Serialization of SessionState. -/
def SessionState.toJson (s : SessionState) : Json :=
  Json.obj [("id", Json.str s.id),
    ("queries", Json.arr (s.queries.map Json.str)),
    ("responses", Json.arr (s.responses.map Json.str)),
    ("created_at", Json.nat s.created_at),
    ("last_updated", Json.nat s.last_updated)]

/-- Serialization of an optional string as null-or-value. -/
def optStrToJson : Option String → Json
  | none => Json.null
  | some s => Json.str s

/-- Serialization of SessionManager, the sessions.json snapshot. -/
def SessionManager.toJson (m : SessionManager) : Json :=
  Json.obj [("sessions", Json.obj (m.sessions.map (fun p => (p.1, SessionState.toJson p.2)))),
    ("active_session", optStrToJson m.active_session)]

/-- Element-wise decoding of a JSON array body. -/
def decList (f : Json → Except String α) : List Json → Except String (List α)
  | [] => Except.ok []
  | j :: js =>
    match f j with
    | Except.error e => Except.error e
    | Except.ok x =>
      match decList f js with
      | Except.error e => Except.error e
      | Except.ok xs => Except.ok (x :: xs)

/-- Value-wise decoding of a JSON object body. -/
def decEntries (f : Json → Except String α) :
    List (String × Json) → Except String (List (String × α))
  | [] => Except.ok []
  | p :: ps =>
    match f p.2 with
    | Except.error e => Except.error e
    | Except.ok x =>
      match decEntries f ps with
      | Except.error e => Except.error e
      | Except.ok xs => Except.ok ((p.1, x) :: xs)

/-- Decoding of a JSON string. -/
def decString : Json → Except String String
  | Json.str s => Except.ok s
  | _ => Except.error "expected string"

/-- Decoding of a JSON number into the real model of f32. -/
def decReal : Json → Except String ℝ
  | Json.real r => Except.ok r
  | _ => Except.error "expected number"

/-- Deserialization of IndexedChunk. -/
def IndexedChunk.fromJson : Json → Except String IndexedChunk
  | Json.obj [("hash", Json.str h), ("id", Json.str i)] =>
    Except.ok (IndexedChunk.mk h i)
  | _ => Except.error "expected IndexedChunk"

/-- Deserialization of FileMetadata. -/
def FileMetadata.fromJson : Json → Except String FileMetadata
  | Json.obj [("last_modified", Json.nat n), ("chunks", Json.arr js)] =>
    match decList IndexedChunk.fromJson js with
    | Except.error e => Except.error e
    | Except.ok cs => Except.ok (FileMetadata.mk n cs)
  | _ => Except.error "expected FileMetadata"

/-- Deserialization of IndexState. -/
def IndexState.fromJson : Json → Except String IndexState
  | Json.obj [("files", Json.obj kvs)] =>
    match decEntries FileMetadata.fromJson kvs with
    | Except.error e => Except.error e
    | Except.ok fs => Except.ok (IndexState.mk fs)
  | _ => Except.error "expected IndexState"

/-- Deserialization of QueryCache. -/
def QueryCache.fromJson : Json → Except String QueryCache
  | Json.obj [("query", Json.str q), ("context_hash", Json.str ch),
      ("embedding", Json.arr js), ("answer", Json.str a)] =>
    match decList decReal js with
    | Except.error e => Except.error e
    | Except.ok em => Except.ok (QueryCache.mk q ch em a)
  | _ => Except.error "expected QueryCache"

/-- Deserialization of QueryState. -/
def QueryState.fromJson : Json → Except String QueryState
  | Json.obj [("entries", Json.arr js)] =>
    match decList QueryCache.fromJson js with
    | Except.error e => Except.error e
    | Except.ok es => Except.ok (QueryState.mk es)
  | _ => Except.error "expected QueryState"

/-- Deserialization of SessionState. -/
def SessionState.fromJson : Json → Except String SessionState
  | Json.obj [("id", Json.str i), ("queries", Json.arr qs),
      ("responses", Json.arr rs), ("created_at", Json.nat ca),
      ("last_updated", Json.nat lu)] =>
    match decList decString qs with
    | Except.error e => Except.error e
    | Except.ok qs2 =>
      match decList decString rs with
      | Except.error e => Except.error e
      | Except.ok rs2 => Except.ok (SessionState.mk i qs2 rs2 ca lu)
  | _ => Except.error "expected SessionState"

/-- Deserialization of SessionManager. -/
def SessionManager.fromJson : Json → Except String SessionManager
  | Json.obj [("sessions", Json.obj kvs), ("active_session", a)] =>
    match decEntries SessionState.fromJson kvs with
    | Except.error e => Except.error e
    | Except.ok ss =>
      match a with
      | Json.null => Except.ok (SessionManager.mk ss none)
      | Json.str s => Except.ok (SessionManager.mk ss (some s))
      | _ => Except.error "expected SessionManager"
  | _ => Except.error "expected SessionManager"

/-! ## Concrete values used by witnesses -/

/-- Entry whose cosine similarity against the unit query [1, 0] is
exactly 95/100: the vector has norm 12179e-8 and dot 11571e-8 against
[1, 0], and 11571 / (12179 + 1) = 95/100. -/
noncomputable def simEntry95 : QueryCache :=
  QueryCache.mk "q95" "c95" [11571 / 100000000, 3800 / 100000000] "hit"

/-- Entry whose cosine similarity against [1, 0] is exactly 90/100: the
vector has norm 1530e-9 and dot 1386e-9, and 1386 / (1530 + 10) = 9/10. -/
noncomputable def simEntry90 : QueryCache :=
  QueryCache.mk "q90" "c90" [1386 / 1000000000, 648 / 1000000000] "miss"

/-- First of two cache entries with equal similarity, for the tie-break
witness. -/
noncomputable def tieEntryA : QueryCache := QueryCache.mk "qa" "ha" [1] "A"

/-- Second (later, tying) cache entry for the tie-break witness. -/
noncomputable def tieEntryB : QueryCache := QueryCache.mk "qb" "hb" [1] "B"

/-- Single-entry cache used by the exact-match witness. -/
def qcacheEx : QueryState := QueryState.mk [QueryCache.mk "q" "h" [] "a"]

/-- Eight-turn session used by the windowing witness. -/
def sessionEx : SessionState :=
  SessionState.mk "s" ["q1", "q2", "q3", "q4", "q5", "q6", "q7", "q8"]
    ["r1", "r2", "r3", "r4", "r5", "r6", "r7", "r8"] 0 0

/-- Manager whose active session is sessionEx. -/
def managerEx : SessionManager :=
  SessionManager.mk [("s", sessionEx)] (some "s")

/-- Two-turn session used by the no-note part of the windowing witness. -/
def sessionShortEx : SessionState :=
  SessionState.mk "t" ["q1", "q2"] ["r1", "r2"] 0 0

/-- Manager whose active session is sessionShortEx. -/
def managerShortEx : SessionManager :=
  SessionManager.mk [("t", sessionShortEx)] (some "t")

/-- Concrete 25-line input used to witness claim C5. -/
def linesEx : List String := List.replicate 25 "x"

/-- Concrete text whose lines are linesEx. -/
def textEx : String := join_lines linesEx

/-! ## Theorems -/

theorem chunksOf_cons (x : α) (xs : List α) :
    chunksOf (x :: xs) = (x :: xs.take 9) :: chunksOf (xs.drop 9) := by
  simp [chunksOf]

theorem chunksOf_len25 (l : List α) (h : l.length = 25) :
    chunksOf l = [l.take 10, (l.drop 10).take 10, l.drop 20] := by
  cases l with
  | nil => simp at h
  | cons a t =>
    have ht : t.length = 24 := by simpa using h
    rw [chunksOf_cons]
    have e1 : (a :: t).drop 10 = t.drop 9 := rfl
    have h9 : (t.drop 9).length = 15 := by simp [ht]
    cases hd : t.drop 9 with
    | nil => rw [hd] at h9; simp at h9
    | cons b u =>
      rw [chunksOf_cons]
      have hu : u.length = 14 := by rw [hd] at h9; simpa using h9
      have h9u : (u.drop 9).length = 5 := by simp [hu]
      cases he : u.drop 9 with
      | nil => rw [he] at h9u; simp at h9u
      | cons c v =>
        rw [chunksOf_cons]
        have hv : v.length = 4 := by rw [he] at h9u; simpa using h9u
        have hv9 : v.drop 9 = [] := by
          apply List.eq_nil_of_length_eq_zero
          simp [hv]
        rw [hv9]
        have e2 : (a :: t).drop 20 = c :: v := by
          show t.drop 19 = c :: v
          rw [show (19 : Nat) = 9 + 10 from rfl, ← List.drop_drop, hd]
          show u.drop 9 = c :: v
          exact he
        have e3 : v.take 9 = v := List.take_of_length_le (by omega)
        simp [chunksOf, e1, hd, e2, e3]

theorem is_blank_append (a b : String) :
    is_blank (a ++ b) = (is_blank a && is_blank b) := by
  simp [is_blank, String.data_append, List.all_append]

theorem join_lines_not_blank {w : List String} {l : String}
    (hl : l ∈ w) (hb : is_blank l = false) :
    is_blank (join_lines w) = false := by
  induction w with
  | nil => simp at hl
  | cons x xs ih =>
    cases xs with
    | nil =>
      simp at hl
      subst hl
      simpa [join_lines] using hb
    | cons y ys =>
      have hj : join_lines (x :: y :: ys) = x ++ "\n" ++ join_lines (y :: ys) := by
        simp [join_lines]
      rw [hj, is_blank_append, is_blank_append]
      rcases List.mem_cons.mp hl with h | h
      · subst h; simp [hb]
      · simp [ih h]

/-- Claim C5: chunk_text groups the lines of the text into consecutive
windows of 10, joins each window with newline, drops windows that are
blank after trimming, is deterministic, and on 25 non-blank lines yields
exactly 3 chunks of 10, 10 and 5 lines. -/
theorem C5_chunk_text_windows (t : String) (ls : List String)
    (hls : rustLines t = ls) (hlen : ls.length = 25)
    (hnb : ∀ l ∈ ls, is_blank l = false) :
    chunk_text t
      = [join_lines (ls.take 10), join_lines ((ls.drop 10).take 10),
         join_lines (ls.drop 20)]
    ∧ (chunk_text t).length = 3
    ∧ (ls.take 10).length = 10
    ∧ ((ls.drop 10).take 10).length = 10
    ∧ (ls.drop 20).length = 5
    ∧ (∀ t2 : String, rustLines t2 = ls → chunk_text t2 = chunk_text t) := by
  have hb1 : is_blank (join_lines (ls.take 10)) = false := by
    cases hx : ls.take 10 with
    | nil =>
      have : (ls.take 10).length = 10 := by simp [hlen]
      rw [hx] at this; simp at this
    | cons x xs =>
      have hxl : x ∈ ls := List.take_subset 10 ls (by rw [hx]; exact List.mem_cons_self x xs)
      exact join_lines_not_blank (List.mem_cons_self x xs) (hnb x hxl)
  have hb2 : is_blank (join_lines ((ls.drop 10).take 10)) = false := by
    cases hx : (ls.drop 10).take 10 with
    | nil =>
      have : ((ls.drop 10).take 10).length = 10 := by simp [hlen]
      rw [hx] at this; simp at this
    | cons x xs =>
      have hxl : x ∈ ls := by
        apply List.drop_subset 10 ls
        apply List.take_subset 10 (ls.drop 10)
        rw [hx]; exact List.mem_cons_self x xs
      exact join_lines_not_blank (List.mem_cons_self x xs) (hnb x hxl)
  have hb3 : is_blank (join_lines (ls.drop 20)) = false := by
    cases hx : ls.drop 20 with
    | nil =>
      have : (ls.drop 20).length = 5 := by simp [hlen]
      rw [hx] at this; simp at this
    | cons x xs =>
      have hxl : x ∈ ls := List.drop_subset 20 ls (by rw [hx]; exact List.mem_cons_self x xs)
      exact join_lines_not_blank (List.mem_cons_self x xs) (hnb x hxl)
  have hmain : chunk_text t
      = [join_lines (ls.take 10), join_lines ((ls.drop 10).take 10),
         join_lines (ls.drop 20)] := by
    unfold chunk_text
    rw [hls, chunksOf_len25 ls hlen]
    simp [List.filter, hb1, hb2, hb3]
  refine ⟨hmain, by rw [hmain]; rfl, by simp [hlen], by simp [hlen], by simp [hlen], ?_⟩
  intro t2 h2
  unfold chunk_text
  rw [h2, hls]

theorem C5_chunk_text_windows_witness :
    chunk_text textEx
      = [join_lines (linesEx.take 10), join_lines ((linesEx.drop 10).take 10),
         join_lines (linesEx.drop 20)]
    ∧ (chunk_text textEx).length = 3
    ∧ (linesEx.take 10).length = 10
    ∧ ((linesEx.drop 10).take 10).length = 10
    ∧ (linesEx.drop 20).length = 5
    ∧ (∀ t2 : String, rustLines t2 = linesEx → chunk_text t2 = chunk_text textEx) :=
  C5_chunk_text_windows textEx linesEx (by decide) (by decide) (by decide)

/-- Claim C2: a file whose current modification time equals the stored
last_modified is skipped entirely: no embedding calls, no remote
mutations, and the whole IndexState (so in particular that file record)
is unchanged. -/
theorem C2_unchanged_file_skipped (hash_chunk : String → String)
    (st : IndexState) (f : String) (modified : Nat) (chunks : List String)
    (ids : List String) (h : get_last_modified st f = some modified) :
    process_file hash_chunk st f modified chunks ids = (st, [], []) := by
  simp [process_file, h]

theorem C2_unchanged_file_skipped_witness :
    process_file (fun s => s) (IndexState.mk [("f", FileMetadata.mk 5 [])])
      "f" 5 ["x"] []
    = (IndexState.mk [("f", FileMetadata.mk 5 [])], [], []) :=
  C2_unchanged_file_skipped (fun s => s) _ "f" 5 ["x"] [] (by decide)

/-- Claim C1, evaluated at the failing input: stored hash set
(h1, h2, h3) at modification time 1, new run at time 2 retaining hashes
(h1, h4).  The claim expects h4 embedded (true), h2 and h3 scheduled for
remote deletion and a final chunk set of h1 and h4; the code instead
deletes nothing and stores all of h1, h2, h3, h4, because new_chunks only
ever holds hashes absent from the previous set, so the retain predicate
of index.rs line 90 never drops a stored chunk and delete_chunk is
unreachable. -/
theorem C1_stale_chunks_never_deleted :
    process_file (fun s => s)
      (IndexState.mk [("f", FileMetadata.mk 1
        [IndexedChunk.mk "h1" "id1", IndexedChunk.mk "h2" "id2",
         IndexedChunk.mk "h3" "id3"])])
      "f" 2 ["h1", "h4"] ["nid"]
    = (IndexState.mk [("f", FileMetadata.mk 2
        [IndexedChunk.mk "h1" "id1", IndexedChunk.mk "h2" "id2",
         IndexedChunk.mk "h3" "id3", IndexedChunk.mk "h4" "nid"])],
       ["h4"], []) := by
  decide

theorem cosine_similarity_single (a b : ℝ) :
    cosine_similarity [a] [b]
      = (a * b) / (Real.sqrt (a * a) * Real.sqrt (b * b) + 1 / 100000000) := by
  simp [cosine_similarity]

theorem cosine_similarity_pair (a1 a2 b1 b2 : ℝ) :
    cosine_similarity [a1, a2] [b1, b2]
      = (a1 * b1 + a2 * b2)
        / (Real.sqrt (a1 * a1 + a2 * a2) * Real.sqrt (b1 * b1 + b2 * b2)
            + 1 / 100000000) := by
  simp [cosine_similarity]

/-- Claim C6: get_cached_answer hits exactly when some stored entry
matches both the query text and the context hash, the returned answer is
that entry's stored answer verbatim, and a context hash matched by no
entry (for example after one context chunk changed) yields a miss. -/
theorem C6_cached_answer_exact (s : QueryState) (q h : String) :
    ((get_cached_answer s q h).isSome
      ↔ ∃ e ∈ s.entries, e.query = q ∧ e.context_hash = h)
    ∧ (∀ a, get_cached_answer s q h = some a →
        ∃ e ∈ s.entries, e.query = q ∧ e.context_hash = h ∧ e.answer = a)
    ∧ (∀ h2, (∀ e ∈ s.entries, ¬(e.query = q ∧ e.context_hash = h2)) →
        get_cached_answer s q h2 = none) := by
  refine ⟨?_, ?_, ?_⟩
  · simp [get_cached_answer, List.find?_isSome]
  · intro a ha
    simp only [get_cached_answer, Option.map_eq_some'] at ha
    obtain ⟨e, hfind, hans⟩ := ha
    have hm := List.mem_of_find?_eq_some hfind
    have hp := List.find?_some hfind
    simp only [Bool.and_eq_true, beq_iff_eq] at hp
    exact ⟨e, hm, hp.1, hp.2, hans⟩
  · intro h2 hall
    have hn : s.entries.find? (fun e => e.query == q && e.context_hash == h2) = none := by
      rw [List.find?_eq_none]
      intro e he
      simpa using hall e he
    simp [get_cached_answer, hn]

theorem C6_cached_answer_exact_witness :
    get_cached_answer qcacheEx "q" "h2" = none
    ∧ ((get_cached_answer qcacheEx "q" "h").isSome
        ↔ ∃ e ∈ qcacheEx.entries, e.query = "q" ∧ e.context_hash = "h") :=
  ⟨(C6_cached_answer_exact qcacheEx "q" "h").2.2 "h2" (by decide),
   (C6_cached_answer_exact qcacheEx "q" "h").1⟩

theorem foldl_maxStep_some (l : List (ℝ × String)) (a : ℝ × String) :
    ∃ r, l.foldl maxStep (some a) = some r ∧ (r = a ∨ r ∈ l) ∧ a.1 ≤ r.1
      ∧ ∀ x ∈ l, x.1 ≤ r.1 := by
  induction l generalizing a with
  | nil => exact ⟨a, rfl, Or.inl rfl, le_refl _, by simp⟩
  | cons x xs ih =>
    by_cases hx : x.1 < a.1
    · have step : maxStep (some a) x = some a := by simp [maxStep, hx]
      obtain ⟨r, hr, hmem, hle, hall⟩ := ih a
      refine ⟨r, by simpa [step] using hr, ?_, hle, ?_⟩
      · rcases hmem with h | h
        · exact Or.inl h
        · exact Or.inr (List.mem_cons_of_mem _ h)
      · intro y hy
        rcases List.mem_cons.mp hy with h | h
        · exact h ▸ le_of_lt (lt_of_lt_of_le hx hle)
        · exact hall y h
    · have step : maxStep (some a) x = some x := by simp [maxStep, hx]
      obtain ⟨r, hr, hmem, hle, hall⟩ := ih x
      have hax : a.1 ≤ x.1 := le_of_not_lt hx
      refine ⟨r, by simpa [step] using hr, ?_, le_trans hax hle, ?_⟩
      · rcases hmem with h | h
        · exact Or.inr (h ▸ List.mem_cons_self x xs)
        · exact Or.inr (List.mem_cons_of_mem _ h)
      · intro y hy
        rcases List.mem_cons.mp hy with h | h
        · exact h ▸ hle
        · exact hall y h

theorem rustMaxBy_some_charac {l : List (ℝ × String)} {r : ℝ × String}
    (h : rustMaxBy l = some r) : r ∈ l ∧ ∀ x ∈ l, x.1 ≤ r.1 := by
  cases l with
  | nil => cases h
  | cons x xs =>
    obtain ⟨r2, hr2, hmem, hle, hall⟩ := foldl_maxStep_some xs x
    have hfold : rustMaxBy (x :: xs) = some r2 := by
      simpa [rustMaxBy, maxStep] using hr2
    rw [hfold] at h
    cases h
    refine ⟨?_, ?_⟩
    · rcases hmem with h | h
      · exact h ▸ List.mem_cons_self x xs
      · exact List.mem_cons_of_mem _ h
    · intro y hy
      rcases List.mem_cons.mp hy with h | h
      · exact h ▸ hle
      · exact hall y h

theorem rustMaxBy_eq_none {l : List (ℝ × String)} :
    rustMaxBy l = none ↔ l = [] := by
  constructor
  · intro h
    cases l with
    | nil => rfl
    | cons x xs =>
      obtain ⟨r2, hr2, _, _, _⟩ := foldl_maxStep_some xs x
      have hfold : rustMaxBy (x :: xs) = some r2 := by
        simpa [rustMaxBy, maxStep] using hr2
      rw [hfold] at h
      cases h
  · intro h
    subst h
    rfl

theorem foldl_maxStep_dominated (l : List (ℝ × String)) (m : ℝ × String)
    (h : ∀ x ∈ l, x.1 < m.1) : l.foldl maxStep (some m) = some m := by
  induction l with
  | nil => rfl
  | cons x xs ih =>
    have hx : x.1 < m.1 := h x (List.mem_cons_self x xs)
    have step : maxStep (some m) x = some m := by simp [maxStep, hx]
    rw [List.foldl_cons, step]
    exact ih (fun y hy => h y (List.mem_cons_of_mem _ hy))

theorem rustMaxBy_last_max (l1 l2 : List (ℝ × String)) (m : ℝ × String)
    (h1 : ∀ x ∈ l1, x.1 ≤ m.1) (h2 : ∀ x ∈ l2, x.1 < m.1) :
    rustMaxBy (l1 ++ m :: l2) = some m := by
  have key : ∀ acc : Option (ℝ × String),
      (acc = none ∨ ∃ r, acc = some r ∧ r.1 ≤ m.1) →
      (m :: l2).foldl maxStep acc = some m := by
    intro acc hacc
    rw [List.foldl_cons]
    have hstep : maxStep acc m = some m := by
      rcases hacc with hn | ⟨r, hr, hrm⟩
      · rw [hn]; rfl
      · rw [hr]; simp [maxStep, not_lt.mpr hrm]
    rw [hstep]
    exact foldl_maxStep_dominated l2 m h2
  rw [rustMaxBy, List.foldl_append]
  apply key
  cases l1 with
  | nil => exact Or.inl rfl
  | cons x xs =>
    obtain ⟨r2, hr2, hmem, _, _⟩ := foldl_maxStep_some xs x
    refine Or.inr ⟨r2, ?_, ?_⟩
    · rw [List.foldl_cons]
      exact hr2
    · rcases hmem with h | h
      · exact h ▸ h1 x (List.mem_cons_self x xs)
      · exact h1 r2 (List.mem_cons_of_mem _ h)

theorem scored_cons (e : QueryCache) (entries : List QueryCache)
    (q : List ℝ) (th : ℝ) :
    scored (e :: entries) q th =
      if e.embedding.length = q.length then
        if th < cosine_similarity e.embedding q then
          (cosine_similarity e.embedding q, e.answer) :: scored entries q th
        else scored entries q th
      else scored entries q th := by
  by_cases h1 : e.embedding.length = q.length
  · by_cases h2 : th < cosine_similarity e.embedding q
    · simp [scored, List.filterMap_cons, h1, h2]
    · simp [scored, List.filterMap_cons, h1, h2]
  · simp [scored, List.filterMap_cons, h1]

theorem scored_append (l1 l2 : List QueryCache) (q : List ℝ) (th : ℝ) :
    scored (l1 ++ l2) q th = scored l1 q th ++ scored l2 q th := by
  simp [scored, List.filterMap_append]

theorem mem_scored {entries : List QueryCache} {q : List ℝ} {th : ℝ}
    {p : ℝ × String} (h : p ∈ scored entries q th) :
    ∃ e ∈ entries, e.embedding.length = q.length
      ∧ th < cosine_similarity e.embedding q
      ∧ p = (cosine_similarity e.embedding q, e.answer) := by
  simp only [scored] at h
  obtain ⟨e, he, hfe⟩ := List.mem_filterMap.mp h
  by_cases h1 : e.embedding.length = q.length
  · rw [if_pos h1] at hfe
    by_cases h2 : th < cosine_similarity e.embedding q
    · rw [if_pos h2] at hfe
      cases hfe
      exact ⟨e, he, h1, h2, rfl⟩
    · rw [if_neg h2] at hfe
      cases hfe
  · rw [if_neg h1] at hfe
    cases hfe

theorem scored_mem_of {entries : List QueryCache} {q : List ℝ} {th : ℝ}
    {e : QueryCache} (he : e ∈ entries) (h1 : e.embedding.length = q.length)
    (h2 : th < cosine_similarity e.embedding q) :
    (cosine_similarity e.embedding q, e.answer) ∈ scored entries q th := by
  simp only [scored]
  exact List.mem_filterMap.mpr ⟨e, he, by rw [if_pos h1, if_pos h2]⟩

theorem scored_filter_len (entries : List QueryCache) (q : List ℝ) (th : ℝ) :
    scored (entries.filter (fun e => e.embedding.length == q.length)) q th
      = scored entries q th := by
  induction entries with
  | nil => rfl
  | cons e es ih =>
    by_cases h1 : e.embedding.length = q.length
    · rw [List.filter_cons_of_pos (by simpa using h1), scored_cons, scored_cons, ih]
    · rw [List.filter_cons_of_neg (by simpa using h1), scored_cons, if_neg h1, ih]

/-- Claim C3: find_similar considers only entries of matching vector
dimensionality, returns some answer exactly when an entry of matching
dimensionality has similarity strictly above the threshold, the answer
returned is that of a maximum-similarity entry, and for a single entry at
similarity 95/100 against threshold 93/100 the answer is returned while
at 90/100 nothing is. -/
theorem C3_find_similar_threshold (s : QueryState) (q : List ℝ) (th : ℝ) :
    (find_similar s q th
      = find_similar (QueryState.mk (s.entries.filter
          (fun e => e.embedding.length == q.length))) q th)
    ∧ ((find_similar s q th).isSome
        ↔ ∃ e ∈ s.entries, e.embedding.length = q.length
            ∧ th < cosine_similarity e.embedding q)
    ∧ (∀ a, find_similar s q th = some a →
        ∃ e ∈ s.entries, e.embedding.length = q.length
          ∧ th < cosine_similarity e.embedding q
          ∧ a = e.answer
          ∧ ∀ e2 ∈ s.entries, e2.embedding.length = q.length →
              cosine_similarity e2.embedding q ≤ cosine_similarity e.embedding q)
    ∧ (∀ e : QueryCache, e.embedding.length = q.length →
        cosine_similarity e.embedding q = 95 / 100 →
        find_similar (QueryState.mk [e]) q (93 / 100) = some e.answer)
    ∧ (∀ e : QueryCache, e.embedding.length = q.length →
        cosine_similarity e.embedding q = 90 / 100 →
        find_similar (QueryState.mk [e]) q (93 / 100) = none) := by
  refine ⟨?_, ?_, ?_, ?_, ?_⟩
  · rw [find_similar, find_similar]
    rw [show (QueryState.mk (s.entries.filter
      (fun e => e.embedding.length == q.length))).entries
        = s.entries.filter (fun e => e.embedding.length == q.length) from rfl]
    rw [scored_filter_len]
  · constructor
    · intro hsome
      rw [find_similar] at hsome
      cases hmax : rustMaxBy (scored s.entries q th) with
      | none => rw [hmax] at hsome; cases hsome
      | some r =>
        have hr := (rustMaxBy_some_charac hmax).1
        obtain ⟨e, he, h1, h2, _⟩ := mem_scored hr
        exact ⟨e, he, h1, h2⟩
    · intro ⟨e, he, h1, h2⟩
      have hmem := scored_mem_of he h1 h2
      rw [find_similar]
      cases hmax : rustMaxBy (scored s.entries q th) with
      | none =>
        rw [rustMaxBy_eq_none] at hmax
        rw [hmax] at hmem
        cases hmem
      | some r => rfl
  · intro a ha
    rw [find_similar] at ha
    cases hmax : rustMaxBy (scored s.entries q th) with
    | none => rw [hmax] at ha; cases ha
    | some r =>
      rw [hmax] at ha
      have hcharac := rustMaxBy_some_charac hmax
      obtain ⟨e, he, h1, h2, hp⟩ := mem_scored hcharac.1
      refine ⟨e, he, h1, h2, ?_, ?_⟩
      · cases ha
        rw [hp]
      · intro e2 he2 hlen2
        by_cases h2b : th < cosine_similarity e2.embedding q
        · have := hcharac.2 _ (scored_mem_of he2 hlen2 h2b)
          rw [hp] at this
          simpa using this
        · exact le_trans (le_of_not_lt h2b) (le_of_lt h2)
  · intro e h1 h2
    rw [find_similar, scored_cons, if_pos h1, if_pos (by rw [h2]; norm_num)]
    rw [show scored [] q (93 / 100) = [] from rfl]
    rfl
  · intro e h1 h2
    rw [find_similar, scored_cons, if_pos h1,
      if_neg (by rw [h2]; norm_num)]
    rfl

theorem C3_find_similar_threshold_witness :
    find_similar (QueryState.mk [simEntry95]) [1, 0] (93 / 100) = some "hit"
    ∧ find_similar (QueryState.mk [simEntry90]) [1, 0] (93 / 100) = none := by
  have h95 : cosine_similarity simEntry95.embedding [1, 0] = 95 / 100 := by
    rw [show simEntry95.embedding
      = [(11571 : ℝ) / 100000000, 3800 / 100000000] from rfl]
    rw [cosine_similarity_pair]
    have hs1 : Real.sqrt ((11571 : ℝ) / 100000000 * (11571 / 100000000)
        + 3800 / 100000000 * (3800 / 100000000)) = 12179 / 100000000 := by
      rw [show (11571 : ℝ) / 100000000 * (11571 / 100000000)
          + 3800 / 100000000 * (3800 / 100000000)
          = ((12179 : ℝ) / 100000000) ^ 2 by norm_num]
      exact Real.sqrt_sq (by norm_num)
    have hs2 : Real.sqrt ((1 : ℝ) * 1 + 0 * 0) = 1 := by
      rw [show (1 : ℝ) * 1 + 0 * 0 = 1 by norm_num]
      exact Real.sqrt_one
    rw [hs1, hs2]
    norm_num
  have h90 : cosine_similarity simEntry90.embedding [1, 0] = 90 / 100 := by
    rw [show simEntry90.embedding
      = [(1386 : ℝ) / 1000000000, 648 / 1000000000] from rfl]
    rw [cosine_similarity_pair]
    have hs1 : Real.sqrt ((1386 : ℝ) / 1000000000 * (1386 / 1000000000)
        + 648 / 1000000000 * (648 / 1000000000)) = 1530 / 1000000000 := by
      rw [show (1386 : ℝ) / 1000000000 * (1386 / 1000000000)
          + 648 / 1000000000 * (648 / 1000000000)
          = ((1530 : ℝ) / 1000000000) ^ 2 by norm_num]
      exact Real.sqrt_sq (by norm_num)
    have hs2 : Real.sqrt ((1 : ℝ) * 1 + 0 * 0) = 1 := by
      rw [show (1 : ℝ) * 1 + 0 * 0 = 1 by norm_num]
      exact Real.sqrt_one
    rw [hs1, hs2]
    norm_num
  constructor
  · exact (C3_find_similar_threshold (QueryState.mk []) [1, 0] 0).2.2.2.1
      simEntry95 rfl h95
  · exact (C3_find_similar_threshold (QueryState.mk []) [1, 0] 0).2.2.2.2
      simEntry90 rfl h90

/-- Claim C9: when several entries attain the same maximal similarity
strictly above the threshold, find_similar returns the answer of the last
such entry in the stored list, because Iterator::max_by resolves ties to
the later element. -/
theorem C9_tie_breaks_to_last (s : QueryState) (q : List ℝ) (th : ℝ)
    (pre post : List QueryCache) (e : QueryCache)
    (hsplit : s.entries = pre ++ e :: post)
    (hlen : e.embedding.length = q.length)
    (hth : th < cosine_similarity e.embedding q)
    (hpre : ∀ x ∈ pre, x.embedding.length = q.length →
        cosine_similarity x.embedding q ≤ cosine_similarity e.embedding q)
    (hpost : ∀ x ∈ post, x.embedding.length = q.length →
        cosine_similarity x.embedding q < cosine_similarity e.embedding q) :
    find_similar s q th = some e.answer := by
  rw [find_similar, hsplit, scored_append, scored_cons, if_pos hlen, if_pos hth]
  have hA : ∀ x ∈ scored pre q th,
      x.1 ≤ (cosine_similarity e.embedding q, e.answer).1 := by
    intro x hx
    obtain ⟨e2, he2, h1, _, hp⟩ := mem_scored hx
    rw [hp]
    exact hpre e2 he2 h1
  have hB : ∀ x ∈ scored post q th,
      x.1 < (cosine_similarity e.embedding q, e.answer).1 := by
    intro x hx
    obtain ⟨e2, he2, h1, _, hp⟩ := mem_scored hx
    rw [hp]
    exact hpost e2 he2 h1
  rw [rustMaxBy_last_max (scored pre q th) (scored post q th) _ hA hB]
  rfl

theorem C9_tie_breaks_to_last_witness :
    find_similar (QueryState.mk [tieEntryA, tieEntryB]) [1] (93 / 100)
      = some "B" := by
  have hsq : Real.sqrt ((1 : ℝ) * 1) = 1 := by
    rw [show (1 : ℝ) * 1 = 1 by norm_num]
    exact Real.sqrt_one
  have hsim : cosine_similarity [(1 : ℝ)] [1] = 1 / (1 * 1 + 1 / 100000000) := by
    rw [cosine_similarity_single, hsq]
    norm_num
  have hB : cosine_similarity tieEntryB.embedding [1] = 1 / (1 * 1 + 1 / 100000000) := by
    rw [show tieEntryB.embedding = [(1 : ℝ)] from rfl, hsim]
  apply C9_tie_breaks_to_last (QueryState.mk [tieEntryA, tieEntryB]) [1] (93 / 100)
    [tieEntryA] [] tieEntryB rfl rfl
  · rw [hB]
    norm_num
  · intro x hx _
    have hxa : x = tieEntryA := by simpa using hx
    subst hxa
    rw [show tieEntryA.embedding = [(1 : ℝ)] from rfl,
      show tieEntryB.embedding = [(1 : ℝ)] from rfl]
  · intro x hx
    simp at hx

/-- Claim C10: hash_query_context depends only on the concatenation of
the query bytes followed by all context chunk bytes in order, with no
separators: two inputs with equal concatenations hash identically. -/
theorem C10_hash_ignores_boundaries (digest : List Char → String)
    (q1 q2 : String) (c1 c2 : List String)
    (h : q1.data ++ (c1.map String.data).flatten
        = q2.data ++ (c2.map String.data).flatten) :
    hash_query_context digest q1 c1 = hash_query_context digest q2 c2 := by
  have acc_eq : ∀ (l : List String) (a : List Char),
      (l.foldl (fun h c => h.update c) (Sha256.mk a)).acc
        = a ++ (l.map String.data).flatten := by
    intro l
    induction l with
    | nil => intro a; simp
    | cons x xs ih =>
      intro a
      rw [List.foldl_cons, show (Sha256.mk a).update x = Sha256.mk (a ++ x.data)
        from rfl, ih]
      simp
  rw [hash_query_context, hash_query_context,
    show Sha256.update (Sha256.mk []) q1 = Sha256.mk q1.data from by
      simp [Sha256.update],
    show Sha256.update (Sha256.mk []) q2 = Sha256.mk q2.data from by
      simp [Sha256.update],
    acc_eq, acc_eq, h]

theorem C10_hash_ignores_boundaries_witness :
    hash_query_context String.mk "ab" ["cd"]
      = hash_query_context String.mk "abc" ["d"] :=
  C10_hash_ignores_boundaries String.mk "ab" "abc" ["cd"] ["d"] (by decide)

/-- Claim C7: set_active_session fails with the not-found error exactly
for unknown ids and succeeds otherwise, add_interaction fails with the
no-active-session error whenever no active session is set, and every
failure leaves the SessionManager state unchanged. -/
theorem C7_session_error_handling :
    (∀ (m : SessionManager) (id : String), (∀ p ∈ m.sessions, p.1 ≠ id) →
        set_active_session m id
          = (m, Except.error ("Session not found: " ++ id)))
    ∧ (∀ (m : SessionManager) (id : String), (∃ p ∈ m.sessions, p.1 = id) →
        set_active_session m id
          = (SessionManager.mk m.sessions (some id), Except.ok ()))
    ∧ (∀ (m : SessionManager) (q r : String) (now : Nat),
        m.active_session = none →
        add_interaction m q r now = (m, Except.error "No active session found"))
    ∧ (∀ (m : SessionManager) (id err : String),
        (set_active_session m id).2 = Except.error err →
        (set_active_session m id).1 = m)
    ∧ (∀ (m : SessionManager) (q r : String) (now : Nat) (err : String),
        (add_interaction m q r now).2 = Except.error err →
        (add_interaction m q r now).1 = m) := by
  refine ⟨?_, ?_, ?_, ?_, ?_⟩
  · intro m id hall
    have hc : ¬ (m.sessions.any (fun p => p.1 == id) = true) := by
      intro h
      obtain ⟨p, hp, hb⟩ := List.any_eq_true.mp h
      exact hall p hp (by simpa using hb)
    simp [set_active_session, hc]
  · intro m id hex
    obtain ⟨p, hp, he⟩ := hex
    have hc : m.sessions.any (fun p => p.1 == id) = true :=
      List.any_eq_true.mpr ⟨p, hp, by simpa using he⟩
    simp [set_active_session, hc]
  · intro m q r now h
    simp [add_interaction, h]
  · intro m id err h
    by_cases hc : m.sessions.any (fun p => p.1 == id) = true
    · simp [set_active_session, hc] at h
    · simp [set_active_session, hc]
  · intro m q r now err h
    cases hA : m.active_session with
    | none => simp [add_interaction, hA]
    | some id =>
      cases hL : lookup_session m.sessions id with
      | none => simp [add_interaction, hA, hL]
      | some s =>
        rw [add_interaction] at h
        simp only [hA, hL] at h
        cases h

theorem C7_session_error_handling_witness :
    set_active_session (SessionManager.mk [] none) "s"
      = (SessionManager.mk [] none, Except.error ("Session not found: " ++ "s"))
    ∧ add_interaction (SessionManager.mk [] none) "q" "r" 7
      = (SessionManager.mk [] none, Except.error "No active session found")
    ∧ set_active_session managerEx "s"
      = (SessionManager.mk managerEx.sessions (some "s"), Except.ok ()) :=
  ⟨C7_session_error_handling.1 (SessionManager.mk [] none) "s" (by simp),
   C7_session_error_handling.2.2.1 (SessionManager.mk [] none) "q" "r" 7 rfl,
   C7_session_error_handling.2.1 managerEx "s" ⟨("s", sessionEx), by decide, rfl⟩⟩

theorem foldl_turns (zs : List (String × String)) (acc : List Message) :
    zs.foldl (fun a p => a ++ [Message.mk "user" p.1, Message.mk "assistant" p.2]) acc
      = acc ++ turnsR zs := by
  induction zs generalizing acc with
  | nil => simp [turnsR]
  | cons p ps ih =>
    rw [List.foldl_cons, ih]
    simp [turnsR]

theorem mem_turnsR_role {zs : List (String × String)} {msg : Message}
    (h : msg ∈ turnsR zs) : msg.role = "user" ∨ msg.role = "assistant" := by
  induction zs with
  | nil => simp [turnsR] at h
  | cons p ps ih =>
    simp only [turnsR, List.mem_cons] at h
    rcases h with h | h | h
    · exact Or.inl (by rw [h])
    · exact Or.inr (by rw [h])
    · exact ih h

theorem note_content_head (k : Nat) :
    (note_message k).content.data.head? = some 'N' := by
  show (("Note: This conversation has " ++ toString k)
    ++ " previous messages that aren\x27t shown here. I\x27m continuing from where we left off.").data.head?
      = some 'N'
  rw [String.data_append, String.data_append]
  rfl

theorem system_ne_note (k : Nat) : system_message ≠ note_message k := by
  intro h
  have h1 : system_message.content.data.head? = some 'Y' := rfl
  rw [h, note_content_head k] at h1
  exact absurd h1 (by decide)

theorem user_ne_note (p c : String) (k : Nat) : user_message p c ≠ note_message k := by
  intro h
  have hr := congrArg Message.role h
  simp [user_message, note_message] at hr

theorem turns_ne_note {zs : List (String × String)} {msg : Message}
    (h : msg ∈ turnsR zs) (k : Nat) : msg ≠ note_message k := by
  intro he
  rcases mem_turnsR_role h with hr | hr
  · rw [he] at hr
    simp [note_message] at hr
  · rw [he] at hr
    simp [note_message] at hr

theorem count_note_turnsR (zs : List (String × String)) (k : Nat) :
    (turnsR zs).count (note_message k) = 0 := by
  rw [List.count_eq_zero]
  intro h
  exact turns_ne_note h k rfl

/-- Claim C4: building LLM context from a session with more than 5
recorded turns includes exactly the last 5 turns plus exactly one
synthetic note citing the number of omitted turns (3 for 8 turns, via
length - 5); with 5 or fewer turns all turns are included and no note
appears. -/
theorem C4_context_window (m : SessionManager) (s : SessionState)
    (prompt : String) (ctx : List String)
    (hs : get_active_session m = some s)
    (hlen : s.responses.length = s.queries.length) :
    (5 < s.queries.length →
      build_messages (some m) prompt ctx
        = system_message :: note_message (s.queries.length - 5) ::
            (turnsR ((s.queries.drop (s.queries.length - 5)).zip
              (s.responses.drop (s.queries.length - 5)))
              ++ [user_message prompt (String.intercalate "\n\n---\n\n" ctx)])
      ∧ (s.queries.drop (s.queries.length - 5)).length = 5
      ∧ (build_messages (some m) prompt ctx).count
          (note_message (s.queries.length - 5)) = 1)
    ∧ (s.queries.length ≤ 5 →
      build_messages (some m) prompt ctx
        = system_message :: (turnsR (s.queries.zip s.responses)
            ++ [user_message prompt (String.intercalate "\n\n---\n\n" ctx)])
      ∧ ∀ k, note_message k ∉ build_messages (some m) prompt ctx) := by
  have hbuild : build_messages (some m) prompt ctx
      = (if 0 < s.queries.length - 5 then
          insert_at1 ([system_message] ++ turnsR
            ((s.queries.drop (s.queries.length - 5)).zip
              (s.responses.drop (s.queries.length - 5))))
            (note_message (s.queries.length - 5))
        else [system_message] ++ turnsR
            ((s.queries.drop (s.queries.length - 5)).zip
              (s.responses.drop (s.queries.length - 5))))
        ++ [user_message prompt (String.intercalate "\n\n---\n\n" ctx)] := by
    simp only [build_messages, hs, foldl_turns]
  constructor
  · intro h5
    have hpos : 0 < s.queries.length - 5 := by omega
    have heq : build_messages (some m) prompt ctx
        = system_message :: note_message (s.queries.length - 5) ::
            (turnsR ((s.queries.drop (s.queries.length - 5)).zip
              (s.responses.drop (s.queries.length - 5)))
              ++ [user_message prompt (String.intercalate "\n\n---\n\n" ctx)]) := by
      rw [hbuild, if_pos hpos]
      simp [insert_at1]
    refine ⟨heq, by simp; omega, ?_⟩
    rw [heq]
    rw [List.count_cons, List.count_cons, List.count_append, List.count_cons]
    rw [count_note_turnsR]
    have e1 : (system_message == note_message (s.queries.length - 5)) = false := by
      simp [system_ne_note]
    have e2 : (note_message (s.queries.length - 5)
        == note_message (s.queries.length - 5)) = true := by simp
    have e3 : (user_message prompt (String.intercalate "\n\n---\n\n" ctx)
        == note_message (s.queries.length - 5)) = false := by
      simp [user_ne_note]
    simp [e1, e2, e3, List.count_nil]
  · intro h5
    have hz : s.queries.length - 5 = 0 := by omega
    have heq : build_messages (some m) prompt ctx
        = system_message :: (turnsR (s.queries.zip s.responses)
            ++ [user_message prompt (String.intercalate "\n\n---\n\n" ctx)]) := by
      rw [hbuild, hz]
      simp
    refine ⟨heq, ?_⟩
    intro k hmem
    rw [heq] at hmem
    rcases List.mem_cons.mp hmem with h | h
    · exact system_ne_note k h.symm
    · rcases List.mem_append.mp h with h | h
      · exact turns_ne_note h k rfl
      · have : note_message k
            = user_message prompt (String.intercalate "\n\n---\n\n" ctx) := by
          simpa using h
        exact user_ne_note _ _ k this.symm

theorem C4_context_window_witness :
    (build_messages (some managerEx) "p" []
      = system_message :: note_message 3 ::
          (turnsR ((sessionEx.queries.drop 3).zip (sessionEx.responses.drop 3))
            ++ [user_message "p" (String.intercalate "\n\n---\n\n" [])])
      ∧ (sessionEx.queries.drop 3).length = 5
      ∧ (build_messages (some managerEx) "p" []).count (note_message 3) = 1)
    ∧ (build_messages (some managerShortEx) "p" []
      = system_message :: (turnsR (sessionShortEx.queries.zip sessionShortEx.responses)
          ++ [user_message "p" (String.intercalate "\n\n---\n\n" [])])
      ∧ ∀ k, note_message k ∉ build_messages (some managerShortEx) "p" []) :=
  ⟨(C4_context_window managerEx sessionEx "p" [] rfl rfl).1 (by decide),
   (C4_context_window managerShortEx sessionShortEx "p" [] rfl rfl).2 (by decide)⟩

theorem decList_map (f : α → Json) (g : Json → Except String α)
    (hfg : ∀ x, g (f x) = Except.ok x) (l : List α) :
    decList g (l.map f) = Except.ok l := by
  induction l with
  | nil => rfl
  | cons x xs ih =>
    rw [List.map_cons]
    rw [decList]
    rw [hfg x, ih]

theorem decEntries_map (f : α → Json) (g : Json → Except String α)
    (hfg : ∀ x, g (f x) = Except.ok x) (l : List (String × α)) :
    decEntries g (l.map (fun p => (p.1, f p.2))) = Except.ok l := by
  induction l with
  | nil => rfl
  | cons p ps ih =>
    rw [List.map_cons]
    rw [decEntries]
    rw [hfg p.2, ih]

theorem roundtrip_real (r : ℝ) : decReal (Json.real r) = Except.ok r := rfl

theorem roundtrip_string (s : String) : decString (Json.str s) = Except.ok s := rfl

theorem roundtrip_IndexedChunk (c : IndexedChunk) :
    IndexedChunk.fromJson (IndexedChunk.toJson c) = Except.ok c := by
  cases c
  rfl

theorem roundtrip_FileMetadata (m : FileMetadata) :
    FileMetadata.fromJson (FileMetadata.toJson m) = Except.ok m := by
  cases m with
  | mk lm cs =>
    rw [FileMetadata.toJson]
    rw [FileMetadata.fromJson]
    rw [decList_map IndexedChunk.toJson IndexedChunk.fromJson roundtrip_IndexedChunk]

theorem roundtrip_QueryCache (e : QueryCache) :
    QueryCache.fromJson (QueryCache.toJson e) = Except.ok e := by
  cases e with
  | mk q ch em a =>
    rw [QueryCache.toJson]
    rw [QueryCache.fromJson]
    rw [decList_map Json.real decReal roundtrip_real]

theorem roundtrip_SessionState (s : SessionState) :
    SessionState.fromJson (SessionState.toJson s) = Except.ok s := by
  cases s with
  | mk i qs rs ca lu =>
    rw [SessionState.toJson]
    rw [SessionState.fromJson]
    rw [decList_map Json.str decString roundtrip_string,
      decList_map Json.str decString roundtrip_string]

/-- Claim C8: for each of the three state snapshots, serializing and
deserializing through the JSON tree is the identity, field for field. -/
theorem C8_snapshot_roundtrip :
    (∀ s : IndexState, IndexState.fromJson (IndexState.toJson s) = Except.ok s)
    ∧ (∀ s : QueryState, QueryState.fromJson (QueryState.toJson s) = Except.ok s)
    ∧ (∀ m : SessionManager,
        SessionManager.fromJson (SessionManager.toJson m) = Except.ok m) := by
  refine ⟨?_, ?_, ?_⟩
  · intro s
    cases s with
    | mk files =>
      rw [IndexState.toJson]
      rw [IndexState.fromJson]
      rw [decEntries_map FileMetadata.toJson FileMetadata.fromJson
        roundtrip_FileMetadata]
  · intro s
    cases s with
    | mk entries =>
      rw [QueryState.toJson]
      rw [QueryState.fromJson]
      rw [decList_map QueryCache.toJson QueryCache.fromJson roundtrip_QueryCache]
  · intro m
    cases m with
    | mk sessions active =>
      cases active with
      | none =>
        rw [SessionManager.toJson]
        rw [SessionManager.fromJson]
        rw [decEntries_map SessionState.toJson SessionState.fromJson
          roundtrip_SessionState]
        rfl
      | some a =>
        rw [SessionManager.toJson]
        rw [SessionManager.fromJson]
        rw [decEntries_map SessionState.toJson SessionState.fromJson
          roundtrip_SessionState]
        rfl
